import Mathlib

/-!
Verification of the E-FRET coefficient-calculation pipeline
(`src/domb/fret/e_fret/coef_calc.py` of the DoMB_tools repository).

The numeric pipeline is shallowly embedded in Lean:

* an image frame is a flattened list of pixel intensities in `ℚ`
  (numpy float arithmetic is modelled by exact rational arithmetic);
* an image stack is a list of frames (time axis);
* a 4-channel stack (`numpy` shape `[frame, row, col, channel]`) is a
  list of frames whose pixels are 4-tuples `(DD, DA, AD, AA)` — the
  shared shape of the four channels of one numpy array is thereby
  built into the data type;
* boolean masks and integer label maps are flattened lists aligned
  pixel-by-pixel with the frames;
* `scipy.stats.linregress` is modelled by its defining ordinary
  least-squares formulas over `ℚ`;
* `numpy` unsigned-integer casts are modelled by `Int.toNat ∘ floor`
  followed by reduction modulo `2^16`.

The cell masks of `GReg` are produced by `domb.utils.masking.proc_mask`
and `skimage` morphology, which are outside the analysed source file;
masks and label maps therefore enter the embedding as parameters.
-/

namespace CoefCalc

abbrev Frame := List ℚ
abbrev Stack := List Frame
abbrev MaskF := List Bool
abbrev LabelMap := List ℕ

/-- Pixel of a 4-channel registration: `(DD, DA, AD, AA)`,
channel order of the numpy array `img[:,:,:,0..3]`. -/
abbrev Px4 := ℚ × ℚ × ℚ × ℚ

/-- One 4-channel image stack (`[frame, pixel, channel]`, flattened space). -/
abbrev Stack4 := List (List Px4)

/-- Channel 0 of a 4-channel stack: `img[:,:,:,0]`, the DD (CFP-435) channel. -/
def chDD (s : Stack4) : Stack := s.map (fun fr => fr.map (fun p => p.1))

/-- Channel 1 of a 4-channel stack: `img[:,:,:,1]`, the DA (YFP-435) channel. -/
def chDA (s : Stack4) : Stack := s.map (fun fr => fr.map (fun p => p.2.1))

/-- Channel 2 of a 4-channel stack: `img[:,:,:,2]`, the AD (CFP-505) channel. -/
def chAD (s : Stack4) : Stack := s.map (fun fr => fr.map (fun p => p.2.2.1))

/-- Channel 3 of a 4-channel stack: `img[:,:,:,3]`, the AA (YFP-505) channel. -/
def chAA (s : Stack4) : Stack := s.map (fun fr => fr.map (fun p => p.2.2.2))

/-- Insertion into a sorted list (helper for the sort underlying
`np.percentile`). -/
def insertSorted (x : ℚ) : List ℚ → List ℚ
  | [] => [x]
  | y :: ys => if x ≤ y then x :: y :: ys else y :: insertSorted x ys

/-- Insertion sort of the flattened pixel values (the sort performed
internally by `np.percentile`). -/
def sortList : List ℚ → List ℚ
  | [] => []
  | x :: xs => insertSorted x (sortList xs)

/-- `np.percentile(f, 1)` with numpy's default linear interpolation:
sort the flattened values, take position `(n-1)·1/100` and interpolate
linearly between the two neighbouring order statistics. -/
def percentile1 (l : List ℚ) : ℚ :=
  let s := sortList l
  let n := s.length
  if n = 0 then 0 else
    let pos : ℚ := (n - 1 : ℚ) * 1 / 100
    let i : ℕ := (⌊pos⌋).toNat
    let lo := s.getD i 0
    let hi := s.getD (i + 1) lo
    lo + (pos - i) * (hi - lo)

/-- `.astype(np.uint16)` applied to a non-negative float: truncate to an
integer and reduce into the unsigned 16-bit range. -/
def npToUint16 (q : ℚ) : ℕ := (⌊q⌋).toNat % 65536

/-- `np.mean` of a 1-D array (rational division; the empty case,
`NaN` in numpy, is mapped to `0` and never used by the claims). -/
def npMean (l : List ℚ) : ℚ := l.sum / l.length

/-- `np.mean(frame, where=mask)`: mean of the pixel values selected by
the boolean mask. -/
def npMeanWhere (mask : MaskF) (l : List ℚ) : ℚ :=
  npMean ((mask.zip l).filterMap (fun p => if p.1 then some p.2 else none))

/-- The square of `np.std` of a 1-D array (population variance;
the standard deviation itself is its square root, kept squared here to
stay inside `ℚ`). -/
def npStdSq (l : List ℚ) : ℚ := npMean (l.map (fun x => (x - npMean l) ^ 2))

/-- Slope of `scipy.stats.linregress(xs, ys)`: ordinary least squares,
`Σ(x-x̄)(y-ȳ) / Σ(x-x̄)²`. -/
def linregressSlope (xs ys : List ℚ) : ℚ :=
  let xbar := npMean xs
  let ybar := npMean ys
  (((xs.zip ys).map (fun p => (p.1 - xbar) * (p.2 - ybar))).sum) /
    ((xs.map (fun x => (x - xbar) ^ 2)).sum)

/-- Intercept of `scipy.stats.linregress(xs, ys)`: `ȳ - slope·x̄`. -/
def linregressIntercept (xs ys : List ℚ) : ℚ :=
  npMean ys - linregressSlope xs ys * npMean xs

/-- `bc_p_m` of `CrossReg.__init__` / `GReg.__init__`:
`np.array([f - np.percentile(f,1) for f in x]).clip(min=0).astype(np.uint16)` —
subtract each frame's own 1st percentile (list comprehension over
frames), then clip the whole stack at `0`, then cast to `uint16`. -/
def bc_p_m (x : Stack) : List (List ℕ) :=
  (x.map (fun f => f.map (fun v => v - percentile1 f))).map
    (fun f => f.map (fun v => npToUint16 (max 0 v)))

/-- The background-correction contract as the specification words it:
for each frame independently, subtract that frame's own 1st-percentile
value from every pixel, clip negative results to `0`, and quantize to
the unsigned 16-bit integer range. -/
def bcSpec (x : Stack) : List (List ℕ) :=
  x.map (fun f => f.map (fun v => npToUint16 (max 0 (v - percentile1 f))))

/-- Cast a background-corrected (`uint16`) stack back to the rational
pixel domain (numpy's implicit promotion to float in later arithmetic). -/
def natImgToQ (s : List (List ℕ)) : Stack := s.map (fun f => f.map (fun n : ℕ => (n : ℚ)))

theorem bc_p_m_eq_bcSpec (x : Stack) : bc_p_m x = bcSpec x := by
  simp [bc_p_m, bcSpec, List.map_map, Function.comp]

theorem bc_p_m_pixel_bounds (x : Stack) :
    ∀ fr ∈ bc_p_m x, ∀ v ∈ fr, (0 : ℤ) ≤ (v : ℤ) ∧ (v : ℤ) < 65536 := by
  intro fr hfr v hv
  simp only [bc_p_m, List.mem_map] at hfr
  obtain ⟨f1, -, rfl⟩ := hfr
  simp only [List.mem_map] at hv
  obtain ⟨q, -, rfl⟩ := hv
  refine ⟨Int.ofNat_nonneg _, ?_⟩
  exact_mod_cast Nat.mod_lt _ (by norm_num)

/-- Pointwise ternary zip (elementwise combination of three equal-shape
numpy arrays; extra elements of longer lists are dropped, matching the
equal-shape use sites). -/
def zipWith3 {α β γ δ : Type} (f : α → β → γ → δ) : List α → List β → List γ → List δ
  | a :: as, b :: bs, c :: cs => f a b c :: zipWith3 f as bs cs
  | _, _, _ => []

theorem zipWith3_length {α β γ δ : Type} (f : α → β → γ → δ)
    (as : List α) (bs : List β) (cs : List γ) :
    (zipWith3 f as bs cs).length = min as.length (min bs.length cs.length) := by
  induction as generalizing bs cs with
  | nil => simp [zipWith3]
  | cons a as ih =>
    cases bs with
    | nil => simp [zipWith3]
    | cons b bs =>
      cases cs with
      | nil => simp [zipWith3]
      | cons c cs => simp [zipWith3, ih, Nat.succ_min_succ]

theorem getD_map_of_lt {α β : Type} (f : α → β) (l : List α) (i : ℕ) (d : β) (d' : α)
    (h : i < l.length) : (l.map f).getD i d = f (l.getD i d') := by
  induction l generalizing i with
  | nil => simp at h
  | cons x xs ih =>
    cases i with
    | zero => simp
    | succ n => simpa using ih n (by simpa using h)

theorem zipWith3_getD {α β γ δ : Type} (f : α → β → γ → δ)
    (as : List α) (bs : List β) (cs : List γ) (i : ℕ) (d : δ) (da : α) (db : β) (dc : γ)
    (h1 : i < as.length) (h2 : i < bs.length) (h3 : i < cs.length) :
    (zipWith3 f as bs cs).getD i d = f (as.getD i da) (bs.getD i db) (cs.getD i dc) := by
  induction as generalizing bs cs i with
  | nil => simp at h1
  | cons a as ih =>
    cases bs with
    | nil => simp at h2
    | cons b bs =>
      cases cs with
      | nil => simp at h3
      | cons c cs =>
        cases i with
        | zero => simp [zipWith3]
        | succ n =>
          simp only [zipWith3, List.getD_cons_succ]
          exact ih bs cs n (by simpa using h1) (by simpa using h2) (by simpa using h3)

theorem zip_getD {α β : Type} (as : List α) (bs : List β) (i : ℕ) (da : α) (db : β)
    (h1 : i < as.length) (h2 : i < bs.length) :
    (as.zip bs).getD i (da, db) = (as.getD i da, bs.getD i db) := by
  induction as generalizing bs i with
  | nil => simp at h1
  | cons a as ih =>
    cases bs with
    | nil => simp at h2
    | cons b bs =>
      cases i with
      | zero => simp
      | succ n =>
        simp only [List.zip_cons_cons, List.getD_cons_succ]
        exact ih bs n (by simpa using h1) (by simpa using h2)

theorem ite_lt_zero_eq_max (v : ℚ) : (if v < 0 then 0 else v) = max 0 v := by
  by_cases h : v < 0
  · simp [h, max_eq_left h.le]
  · simp [h, max_eq_right (not_lt.mp h)]

/-- `GReg.__Fc_img`: per frame, per pixel,
`Fc = DA − a·(AA − c·DD) − d·(DD − b·AA)` followed by
`Fc_frame[Fc_frame < 0] = 0`. -/
def Fc_img (dd_img da_img aa_img : Stack) (a b c d : ℚ) : Stack :=
  zipWith3 (fun DD_frame DA_frame AA_frame =>
    zipWith3 (fun DDv DAv AAv =>
      let v := DAv - a * (AAv - c * DDv) - d * (DDv - b * AAv)
      if v < 0 then 0 else v) DD_frame DA_frame AA_frame) dd_img da_img aa_img

/-- One pixel of `GReg.__G_img`: masked-array division
`(Fc_pre − Fc_post) / (DD_post − DD_pre)` where elements outside the
mask — and the invalid division by a zero denominator — are masked
(no value). -/
def G_px (m : Bool) (fpre fpost dpre dpost : ℚ) : Option ℚ :=
  if m then
    if dpost - dpre = 0 then none else some ((fpre - fpost) / (dpost - dpre))
  else none

/-- One frame of `GReg.__G_img`. -/
def G_frame (mask : MaskF) (fpre fpost dpre dpost : Frame) : List (Option ℚ) :=
  zipWith3 (fun m fc dd => G_px m fc.1 fc.2 dd.1 dd.2) mask (fpre.zip fpost) (dpre.zip dpost)

/-- `GReg.__G_img(Fc_pre_img, Fc_post_img, dd_pre_img, dd_post_img, mask)`:
frame by frame, `(Fc_pre − Fc_post) / (DD_post − DD_pre)` on arrays
masked outside the cell mask (`ma.masked_where(~mask, ...)`). -/
def G_img_calc (Fc_pre_img Fc_post_img dd_pre_img dd_post_img : Stack) (mask : MaskF) :
    List (List (Option ℚ)) :=
  zipWith3 (fun fpre fpost dd => G_frame mask fpre fpost dd.1 dd.2)
    Fc_pre_img Fc_post_img (dd_pre_img.zip dd_post_img)

/-- State of one `GReg` bleach-pair registration after `__init__`. -/
structure GReg where
  img_name : String
  a : ℚ
  b : ℚ
  c : ℚ
  d : ℚ
  DD_img : List (List ℕ)
  DA_img : List (List ℕ)
  AD_img : List (List ℕ)
  AA_img : List (List ℕ)
  DD_img_post : List (List ℕ)
  DA_img_post : List (List ℕ)
  AD_img_post : List (List ℕ)
  AA_img_post : List (List ℕ)
  Fc_pre : Stack
  Fc_post : Stack
  G_img : List (List (Option ℚ))

/-- `GReg.__init__(img_name, pre_img, post_img, coef_list)`: split the
pre/post stacks into channels, background-correct all eight channel
stacks with `bc_p_m`, compute `Fc_pre` and `Fc_post` with `__Fc_img`
using the same four coefficients `coef_list = [a, b, c, d]`, and the G
image with `__G_img`.  The cell `mask` is produced by the external
`masking.proc_mask` utility plus `skimage` morphology (outside the
analysed source file) and enters as a parameter. -/
def mkGReg (img_name : String) (pre_img post_img : Stack4) (coef_list : ℚ × ℚ × ℚ × ℚ)
    (mask : MaskF) : GReg :=
  let a := coef_list.1
  let b := coef_list.2.1
  let c := coef_list.2.2.1
  let d := coef_list.2.2.2
  let DD_img := bc_p_m (chDD pre_img)
  let DA_img := bc_p_m (chDA pre_img)
  let AD_img := bc_p_m (chAD pre_img)
  let AA_img := bc_p_m (chAA pre_img)
  let DD_img_post := bc_p_m (chDD post_img)
  let DA_img_post := bc_p_m (chDA post_img)
  let AD_img_post := bc_p_m (chAD post_img)
  let AA_img_post := bc_p_m (chAA post_img)
  let Fc_pre := Fc_img (natImgToQ DD_img) (natImgToQ DA_img) (natImgToQ AA_img) a b c d
  let Fc_post := Fc_img (natImgToQ DD_img_post) (natImgToQ DA_img_post)
    (natImgToQ AA_img_post) a b c d
  let G_image := G_img_calc Fc_pre Fc_post (natImgToQ DD_img) (natImgToQ DD_img_post) mask
  { img_name := img_name, a := a, b := b, c := c, d := d,
    DD_img := DD_img, DA_img := DA_img, AD_img := AD_img, AA_img := AA_img,
    DD_img_post := DD_img_post, DA_img_post := DA_img_post,
    AD_img_post := AD_img_post, AA_img_post := AA_img_post,
    Fc_pre := Fc_pre, Fc_post := Fc_post, G_img := G_image }

/-- Pixel accessor of a rational stack (frame `t`, flattened pixel `i`). -/
def pxAt (s : Stack) (t i : ℕ) : ℚ := (s.getD t []).getD i 0

/-- Pixel accessor of a masked (optional-valued) stack. -/
def pxOAt (s : List (List (Option ℚ))) (t i : ℕ) : Option ℚ := (s.getD t []).getD i none

theorem length_corr (s : Stack) : (natImgToQ (bc_p_m s)).length = s.length := by
  simp [natImgToQ, bc_p_m]

theorem getD_corr_length (s : Stack) (t : ℕ) (h : t < s.length) :
    ((natImgToQ (bc_p_m s)).getD t []).length = (s.getD t []).length := by
  rw [bc_p_m_eq_bcSpec]
  unfold natImgToQ bcSpec
  rw [List.map_map, getD_map_of_lt _ s t [] [] h]
  simp only [Function.comp_apply, List.length_map]

theorem length_corr_ch (sel : Px4 → ℚ) (s : Stack4) :
    (natImgToQ (bc_p_m (s.map (fun fr => fr.map sel)))).length = s.length := by
  simp [natImgToQ, bc_p_m]

theorem getD_ch_length (sel : Px4 → ℚ) (s : Stack4) (t : ℕ) (h : t < s.length) :
    ((s.map (fun fr => fr.map sel)).getD t []).length = (s.getD t []).length := by
  rw [getD_map_of_lt _ s t [] [] h]; simp

theorem getD_corr_ch_length (sel : Px4 → ℚ) (s : Stack4) (t : ℕ) (h : t < s.length) :
    ((natImgToQ (bc_p_m (s.map (fun fr => fr.map sel)))).getD t []).length =
      (s.getD t []).length := by
  rw [getD_corr_length _ t (by simpa using h), getD_ch_length sel s t h]

theorem Fc_img_pxAt (dd_img da_img aa_img : Stack) (a b c d : ℚ) (t i : ℕ)
    (h1 : t < dd_img.length) (h2 : t < da_img.length) (h3 : t < aa_img.length)
    (k1 : i < (dd_img.getD t []).length) (k2 : i < (da_img.getD t []).length)
    (k3 : i < (aa_img.getD t []).length) :
    pxAt (Fc_img dd_img da_img aa_img a b c d) t i =
      max 0 (pxAt da_img t i - a * (pxAt aa_img t i - c * pxAt dd_img t i)
        - d * (pxAt dd_img t i - b * pxAt aa_img t i)) := by
  unfold pxAt Fc_img
  rw [zipWith3_getD _ dd_img da_img aa_img t [] [] [] [] h1 h2 h3]
  rw [zipWith3_getD _ _ _ _ i 0 0 0 0 k1 k2 k3]
  exact ite_lt_zero_eq_max _

theorem length_Fc_corr (s : Stack4) (a b c d : ℚ) :
    (Fc_img (natImgToQ (bc_p_m (chDD s))) (natImgToQ (bc_p_m (chDA s)))
      (natImgToQ (bc_p_m (chAA s))) a b c d).length = s.length := by
  unfold Fc_img
  rw [zipWith3_length]
  simp [natImgToQ, bc_p_m, chDD, chDA, chAA]

theorem getD_Fc_corr_length (s : Stack4) (a b c d : ℚ) (t : ℕ) (h : t < s.length) :
    ((Fc_img (natImgToQ (bc_p_m (chDD s))) (natImgToQ (bc_p_m (chDA s)))
      (natImgToQ (bc_p_m (chAA s))) a b c d).getD t []).length = (s.getD t []).length := by
  unfold Fc_img
  rw [zipWith3_getD _ _ _ _ t [] [] [] []
    (by simp only [chDD]; rw [length_corr_ch]; exact h)
    (by simp only [chDA]; rw [length_corr_ch]; exact h)
    (by simp only [chAA]; rw [length_corr_ch]; exact h)]
  rw [zipWith3_length]
  simp only [chDD, chDA, chAA]
  rw [getD_corr_ch_length _ _ _ h, getD_corr_ch_length _ _ _ h, getD_corr_ch_length _ _ _ h]
  simp

/-- C1: in `GReg.__init__`, the corrected FRET stacks are computed per
frame and per pixel as `Fc = DA − a·(AA − c·DD) − d·(DD − b·AA)` with
negative results replaced by 0 (`max 0 ·`), and the same four
coefficients of `coef_list` feed both `Fc_pre` and `Fc_post`. -/
theorem GReg_Fc_same_coefs (nm : String) (pre_img post_img : Stack4)
    (a b c d : ℚ) (mask : MaskF) (t i t' i' : ℕ)
    (ht : t < pre_img.length) (hi : i < (pre_img.getD t []).length)
    (ht' : t' < post_img.length) (hi' : i' < (post_img.getD t' []).length) :
    pxAt (mkGReg nm pre_img post_img (a, b, c, d) mask).Fc_pre t i =
      max 0 (pxAt (natImgToQ (bc_p_m (chDA pre_img))) t i
        - a * (pxAt (natImgToQ (bc_p_m (chAA pre_img))) t i
          - c * pxAt (natImgToQ (bc_p_m (chDD pre_img))) t i)
        - d * (pxAt (natImgToQ (bc_p_m (chDD pre_img))) t i
          - b * pxAt (natImgToQ (bc_p_m (chAA pre_img))) t i)) ∧
    pxAt (mkGReg nm pre_img post_img (a, b, c, d) mask).Fc_post t' i' =
      max 0 (pxAt (natImgToQ (bc_p_m (chDA post_img))) t' i'
        - a * (pxAt (natImgToQ (bc_p_m (chAA post_img))) t' i'
          - c * pxAt (natImgToQ (bc_p_m (chDD post_img))) t' i')
        - d * (pxAt (natImgToQ (bc_p_m (chDD post_img))) t' i'
          - b * pxAt (natImgToQ (bc_p_m (chAA post_img))) t' i')) := by
  constructor
  · have e : (mkGReg nm pre_img post_img (a, b, c, d) mask).Fc_pre =
        Fc_img (natImgToQ (bc_p_m (chDD pre_img))) (natImgToQ (bc_p_m (chDA pre_img)))
          (natImgToQ (bc_p_m (chAA pre_img))) a b c d := rfl
    rw [e]
    exact Fc_img_pxAt _ _ _ a b c d t i
      (by simp only [chDD]; rw [length_corr_ch]; exact ht)
      (by simp only [chDA]; rw [length_corr_ch]; exact ht)
      (by simp only [chAA]; rw [length_corr_ch]; exact ht)
      (by simp only [chDD]; rw [getD_corr_ch_length _ _ _ ht]; exact hi)
      (by simp only [chDA]; rw [getD_corr_ch_length _ _ _ ht]; exact hi)
      (by simp only [chAA]; rw [getD_corr_ch_length _ _ _ ht]; exact hi)
  · have e : (mkGReg nm pre_img post_img (a, b, c, d) mask).Fc_post =
        Fc_img (natImgToQ (bc_p_m (chDD post_img))) (natImgToQ (bc_p_m (chDA post_img)))
          (natImgToQ (bc_p_m (chAA post_img))) a b c d := rfl
    rw [e]
    exact Fc_img_pxAt _ _ _ a b c d t' i'
      (by simp only [chDD]; rw [length_corr_ch]; exact ht')
      (by simp only [chDA]; rw [length_corr_ch]; exact ht')
      (by simp only [chAA]; rw [length_corr_ch]; exact ht')
      (by simp only [chDD]; rw [getD_corr_ch_length _ _ _ ht']; exact hi')
      (by simp only [chDA]; rw [getD_corr_ch_length _ _ _ ht']; exact hi')
      (by simp only [chAA]; rw [getD_corr_ch_length _ _ _ ht']; exact hi')

theorem G_img_calc_pxOAt (Fc_pre_img Fc_post_img dd_pre_img dd_post_img : Stack)
    (mask : MaskF) (t i : ℕ)
    (h1 : t < Fc_pre_img.length) (h2 : t < Fc_post_img.length)
    (h3 : t < dd_pre_img.length) (h4 : t < dd_post_img.length)
    (k1 : i < (Fc_pre_img.getD t []).length) (k2 : i < (Fc_post_img.getD t []).length)
    (k3 : i < (dd_pre_img.getD t []).length) (k4 : i < (dd_post_img.getD t []).length)
    (km : i < mask.length) :
    pxOAt (G_img_calc Fc_pre_img Fc_post_img dd_pre_img dd_post_img mask) t i =
      G_px (mask.getD i false) (pxAt Fc_pre_img t i) (pxAt Fc_post_img t i)
        (pxAt dd_pre_img t i) (pxAt dd_post_img t i) := by
  unfold pxOAt G_img_calc
  rw [zipWith3_getD _ _ _ _ t [] [] [] ([], []) h1 h2
    (by rw [List.length_zip]; exact Nat.lt_min.mpr ⟨h3, h4⟩)]
  rw [zip_getD dd_pre_img dd_post_img t [] [] h3 h4]
  unfold G_frame
  rw [zipWith3_getD _ _ _ _ i none false (0, 0) (0, 0) km
    (by rw [List.length_zip]; exact Nat.lt_min.mpr ⟨k1, k2⟩)
    (by rw [List.length_zip]; exact Nat.lt_min.mpr ⟨k3, k4⟩)]
  rw [zip_getD _ _ i 0 0 k1 k2, zip_getD _ _ i 0 0 k3 k4]
  rfl

/-- C4: the G image of a `GReg` registration is the per-frame
masked-array quotient `(Fc_pre − Fc_post) / (DD_post − DD_pre)`:
a pixel outside the cell mask carries no value, and a pixel inside the
mask (with a nonzero denominator) carries exactly that quotient of the
registration's own `Fc_pre`, `Fc_post` and background-corrected
`DD` stacks. -/
theorem GReg_G_img_masked (nm : String) (pre_img post_img : Stack4)
    (a b c d : ℚ) (mask : MaskF) (t i : ℕ)
    (ht : t < pre_img.length) (hi : i < (pre_img.getD t []).length)
    (ht' : t < post_img.length) (hi' : i < (post_img.getD t []).length)
    (km : i < mask.length) :
    (mask.getD i false = false →
      pxOAt (mkGReg nm pre_img post_img (a, b, c, d) mask).G_img t i = none) ∧
    (mask.getD i false = true →
      pxAt (natImgToQ (bc_p_m (chDD post_img))) t i
          - pxAt (natImgToQ (bc_p_m (chDD pre_img))) t i ≠ 0 →
      pxOAt (mkGReg nm pre_img post_img (a, b, c, d) mask).G_img t i =
        some ((pxAt (mkGReg nm pre_img post_img (a, b, c, d) mask).Fc_pre t i
            - pxAt (mkGReg nm pre_img post_img (a, b, c, d) mask).Fc_post t i) /
          (pxAt (natImgToQ (bc_p_m (chDD post_img))) t i
            - pxAt (natImgToQ (bc_p_m (chDD pre_img))) t i))) := by
  have e : (mkGReg nm pre_img post_img (a, b, c, d) mask).G_img =
      G_img_calc (mkGReg nm pre_img post_img (a, b, c, d) mask).Fc_pre
        (mkGReg nm pre_img post_img (a, b, c, d) mask).Fc_post
        (natImgToQ (bc_p_m (chDD pre_img))) (natImgToQ (bc_p_m (chDD post_img))) mask := rfl
  have e1 : (mkGReg nm pre_img post_img (a, b, c, d) mask).Fc_pre =
      Fc_img (natImgToQ (bc_p_m (chDD pre_img))) (natImgToQ (bc_p_m (chDA pre_img)))
        (natImgToQ (bc_p_m (chAA pre_img))) a b c d := rfl
  have e2 : (mkGReg nm pre_img post_img (a, b, c, d) mask).Fc_post =
      Fc_img (natImgToQ (bc_p_m (chDD post_img))) (natImgToQ (bc_p_m (chDA post_img)))
        (natImgToQ (bc_p_m (chAA post_img))) a b c d := rfl
  have hmain : pxOAt (mkGReg nm pre_img post_img (a, b, c, d) mask).G_img t i =
      G_px (mask.getD i false)
        (pxAt (mkGReg nm pre_img post_img (a, b, c, d) mask).Fc_pre t i)
        (pxAt (mkGReg nm pre_img post_img (a, b, c, d) mask).Fc_post t i)
        (pxAt (natImgToQ (bc_p_m (chDD pre_img))) t i)
        (pxAt (natImgToQ (bc_p_m (chDD post_img))) t i) := by
    rw [e]
    exact G_img_calc_pxOAt _ _ _ _ mask t i
      (by rw [e1, length_Fc_corr]; exact ht)
      (by rw [e2, length_Fc_corr]; exact ht')
      (by simp only [chDD]; rw [length_corr_ch]; exact ht)
      (by simp only [chDD]; rw [length_corr_ch]; exact ht')
      (by rw [e1, getD_Fc_corr_length _ _ _ _ _ _ ht]; exact hi)
      (by rw [e2, getD_Fc_corr_length _ _ _ _ _ _ ht']; exact hi')
      (by simp only [chDD]; rw [getD_corr_ch_length _ _ _ ht]; exact hi)
      (by simp only [chDD]; rw [getD_corr_ch_length _ _ _ ht']; exact hi')
      km
  constructor
  · intro hm
    rw [hmain, hm]
    rfl
  · intro hm hden
    rw [hmain, hm]
    simp only [G_px, if_true]
    rw [if_neg hden]

theorem GReg_Fc_same_coefs_witness :
    pxAt (mkGReg "w" [[((1 : ℚ), (2 : ℚ), (3 : ℚ), (4 : ℚ))]]
        [[((5 : ℚ), (6 : ℚ), (7 : ℚ), (8 : ℚ))]]
        ((1 : ℚ), (2 : ℚ), (3 : ℚ), (4 : ℚ)) [true]).Fc_pre 0 0 =
      max 0 (pxAt (natImgToQ (bc_p_m (chDA [[((1 : ℚ), (2 : ℚ), (3 : ℚ), (4 : ℚ))]]))) 0 0
        - 1 * (pxAt (natImgToQ (bc_p_m (chAA [[((1 : ℚ), (2 : ℚ), (3 : ℚ), (4 : ℚ))]]))) 0 0
          - 3 * pxAt (natImgToQ (bc_p_m (chDD [[((1 : ℚ), (2 : ℚ), (3 : ℚ), (4 : ℚ))]]))) 0 0)
        - 4 * (pxAt (natImgToQ (bc_p_m (chDD [[((1 : ℚ), (2 : ℚ), (3 : ℚ), (4 : ℚ))]]))) 0 0
          - 2 * pxAt (natImgToQ (bc_p_m (chAA [[((1 : ℚ), (2 : ℚ), (3 : ℚ), (4 : ℚ))]]))) 0 0)) ∧
    pxAt (mkGReg "w" [[((1 : ℚ), (2 : ℚ), (3 : ℚ), (4 : ℚ))]]
        [[((5 : ℚ), (6 : ℚ), (7 : ℚ), (8 : ℚ))]]
        ((1 : ℚ), (2 : ℚ), (3 : ℚ), (4 : ℚ)) [true]).Fc_post 0 0 =
      max 0 (pxAt (natImgToQ (bc_p_m (chDA [[((5 : ℚ), (6 : ℚ), (7 : ℚ), (8 : ℚ))]]))) 0 0
        - 1 * (pxAt (natImgToQ (bc_p_m (chAA [[((5 : ℚ), (6 : ℚ), (7 : ℚ), (8 : ℚ))]]))) 0 0
          - 3 * pxAt (natImgToQ (bc_p_m (chDD [[((5 : ℚ), (6 : ℚ), (7 : ℚ), (8 : ℚ))]]))) 0 0)
        - 4 * (pxAt (natImgToQ (bc_p_m (chDD [[((5 : ℚ), (6 : ℚ), (7 : ℚ), (8 : ℚ))]]))) 0 0
          - 2 * pxAt (natImgToQ (bc_p_m (chAA [[((5 : ℚ), (6 : ℚ), (7 : ℚ), (8 : ℚ))]]))) 0 0)) :=
  GReg_Fc_same_coefs "w" [[((1 : ℚ), (2 : ℚ), (3 : ℚ), (4 : ℚ))]]
    [[((5 : ℚ), (6 : ℚ), (7 : ℚ), (8 : ℚ))]] 1 2 3 4 [true] 0 0 0 0
    (by decide) (by decide) (by decide) (by decide)

theorem GReg_G_img_masked_witness :
    pxOAt (mkGReg "w" [[((10 : ℚ), (20 : ℚ), (0 : ℚ), (30 : ℚ)), ((0 : ℚ), 0, 0, 0)]]
        [[((2 : ℚ), (4 : ℚ), (0 : ℚ), (6 : ℚ)), ((0 : ℚ), 0, 0, 0)]]
        ((0 : ℚ), (0 : ℚ), (0 : ℚ), (0 : ℚ)) [true, true]).G_img 0 0 =
      some ((pxAt (mkGReg "w" [[((10 : ℚ), (20 : ℚ), (0 : ℚ), (30 : ℚ)), ((0 : ℚ), 0, 0, 0)]]
            [[((2 : ℚ), (4 : ℚ), (0 : ℚ), (6 : ℚ)), ((0 : ℚ), 0, 0, 0)]]
            ((0 : ℚ), (0 : ℚ), (0 : ℚ), (0 : ℚ)) [true, true]).Fc_pre 0 0
          - pxAt (mkGReg "w" [[((10 : ℚ), (20 : ℚ), (0 : ℚ), (30 : ℚ)), ((0 : ℚ), 0, 0, 0)]]
            [[((2 : ℚ), (4 : ℚ), (0 : ℚ), (6 : ℚ)), ((0 : ℚ), 0, 0, 0)]]
            ((0 : ℚ), (0 : ℚ), (0 : ℚ), (0 : ℚ)) [true, true]).Fc_post 0 0) /
        (pxAt (natImgToQ (bc_p_m (chDD
            [[((2 : ℚ), (4 : ℚ), (0 : ℚ), (6 : ℚ)), ((0 : ℚ), 0, 0, 0)]]))) 0 0
          - pxAt (natImgToQ (bc_p_m (chDD
            [[((10 : ℚ), (20 : ℚ), (0 : ℚ), (30 : ℚ)), ((0 : ℚ), 0, 0, 0)]]))) 0 0)) :=
  (GReg_G_img_masked "w" [[((10 : ℚ), (20 : ℚ), (0 : ℚ), (30 : ℚ)), ((0 : ℚ), 0, 0, 0)]]
    [[((2 : ℚ), (4 : ℚ), (0 : ℚ), (6 : ℚ)), ((0 : ℚ), 0, 0, 0)]] 0 0 0 0 [true, true] 0 0
    (by decide) (by decide) (by decide) (by decide) (by decide)).2 (by decide)
    (by norm_num [pxAt, natImgToQ, bc_p_m, chDD, percentile1, sortList, insertSorted,
      npToUint16, List.cons_ne_nil]; simp; try norm_num)

/-- C5: `bc_p_m` (the background correction of `CrossReg.__init__` and
`GReg.__init__`), applied to a stack of non-negative integer frames,
subtracts from each frame that frame's own 1st-percentile value, clips
negative results to 0 and quantizes to the unsigned 16-bit integer
range; consequently every pixel of the corrected stack is non-negative
(and below `2^16`). -/
theorem bc_background_correction (x : List (List ℕ)) :
    bc_p_m (natImgToQ x) = bcSpec (natImgToQ x) ∧
    ∀ fr ∈ bc_p_m (natImgToQ x), ∀ v ∈ fr, (0 : ℤ) ≤ (v : ℤ) ∧ (v : ℤ) < 65536 :=
  ⟨bc_p_m_eq_bcSpec _, bc_p_m_pixel_bounds _⟩

theorem bc_background_correction_witness :
    (0 : ℤ) ≤ ((2 : ℕ) : ℤ) ∧ ((2 : ℕ) : ℤ) < 65536 := by
  have hmem : [0, 2] ∈ bc_p_m (natImgToQ [[2, 5]]) := by
    norm_num [bc_p_m, natImgToQ, percentile1, sortList, insertSorted, npToUint16,
      List.cons_ne_nil]
    simp
    try norm_num
  exact (bc_background_correction [[2, 5]]).2 [0, 2] hmem 2 (by decide)

/-- `np.max(label)` over a label map. -/
def labelMax (label : LabelMap) : ℕ := label.foldr max 0

/-- `label == label_num`: the boolean region mask of one label. -/
def labelMask (label : LabelMap) (label_num : ℕ) : MaskF :=
  label.map (fun l => l == label_num)

/-- Modelled from the spec: `masking.label_prof_arr` of
`domb.utils.masking` (the Region Statistics Aggregator) is not part of
the analysed source file.  Spec contract: for each distinct positive
label of the label map, return the arithmetic mean of the image-series
pixels lying under that label, computed independently per frame
(background label 0 excluded).  This is the second of the two values
the Python function returns (the per-region per-frame mean array). -/
def label_prof_arr (input_label : LabelMap) (input_img_series : Stack) : List (List ℚ) :=
  (List.range' 1 (labelMax input_label)).map
    (fun l => input_img_series.map (fun fr => npMeanWhere (labelMask input_label l) fr))

/-- `np.mean(arr, axis=0)` on a rectangular (regions × frames) array:
entry `t` is the mean over the rows of the entries at position `t`. -/
def npMeanAxis0 (arr : List (List ℚ)) : List ℚ :=
  (List.range (arr.headD []).length).map (fun t => npMean (arr.map (fun row => row.getD t 0)))

/-- Elementwise quotient of two equal-shape stacks
(`self.DA_img / self.AA_img` and its analogues). -/
def ratioStack (num den : Stack) : Stack :=
  List.zipWith (fun f g => List.zipWith (fun x y => x / y) f g) num den

/-- The coefficient-`a` branch of `CrossReg.cross_calc` (acceptor-only
registration): `a_prof_arr` from the Region Statistics Aggregator on
`DA_img / AA_img`, `a_prof_mean = np.mean(a_prof_arr, axis=0)`,
`a = np.mean(a_prof_mean)`, `a_sd = np.std(a_prof_mean)`.  The second
component is the square of `a_sd` (kept squared to stay in `ℚ`). -/
def cross_calc_a (label : LabelMap) (DA_img AA_img : Stack) : ℚ × ℚ :=
  let a_prof_arr := label_prof_arr label (ratioStack DA_img AA_img)
  let a_prof_mean := npMeanAxis0 a_prof_arr
  (npMean a_prof_mean, npStdSq a_prof_mean)

/-- The coefficient-`a` procedure as the specification words it: form
the DA/AA ratio series; per labeled region take the per-frame mean of
the ratio within the region; average those per-region means across the
regions into one per-frame profile; report the mean of the profile
across frames as the coefficient and its standard deviation across
frames (represented by its square) as the uncertainty. -/
def specCoefA (label : LabelMap) (DA_img AA_img : Stack) : ℚ × ℚ :=
  let ratio := ratioStack DA_img AA_img
  let profile := (List.range ratio.length).map (fun t =>
    npMean ((List.range' 1 (labelMax label)).map
      (fun l => npMeanWhere (labelMask label l) (ratio.getD t []))))
  (npMean profile, npStdSq profile)

/-- C2: for an acceptor-only registration with at least one labeled
region, the scalar coefficient `a` and its uncertainty computed by
`CrossReg.cross_calc` coincide with the spec's procedure: per-region
per-frame means of DA/AA, averaged across regions into a per-frame
profile, then mean and standard deviation across frames. -/
theorem cross_calc_a_eq_spec (label : LabelMap) (DA_img AA_img : Stack)
    (hK : 1 ≤ labelMax label) :
    cross_calc_a label DA_img AA_img = specCoefA label DA_img AA_img := by
  simp only [cross_calc_a, specCoefA, label_prof_arr, npMeanAxis0]
  obtain ⟨k, hk⟩ := Nat.exists_eq_add_of_le hK
  have hrange : List.range' 1 (labelMax label) = 1 :: List.range' 2 k := by
    rw [hk, Nat.add_comm, List.range'_succ]
  have hhead : (((List.range' 1 (labelMax label)).map
      (fun l => (ratioStack DA_img AA_img).map
        (fun fr => npMeanWhere (labelMask label l) fr))).headD []).length =
      (ratioStack DA_img AA_img).length := by
    rw [hrange]; simp
  rw [hhead]
  have hprof : (List.range (ratioStack DA_img AA_img).length).map (fun t =>
      npMean (((List.range' 1 (labelMax label)).map
        (fun l => (ratioStack DA_img AA_img).map
          (fun fr => npMeanWhere (labelMask label l) fr))).map
        (fun row => row.getD t 0))) =
      (List.range (ratioStack DA_img AA_img).length).map (fun t =>
        npMean ((List.range' 1 (labelMax label)).map
          (fun l => npMeanWhere (labelMask label l)
            ((ratioStack DA_img AA_img).getD t [])))) := by
    apply List.map_congr_left
    intro t ht
    have htl : t < (ratioStack DA_img AA_img).length := List.mem_range.mp ht
    congr 1
    rw [List.map_map]
    apply List.map_congr_left
    intro l _
    simp only [Function.comp_apply]
    exact getD_map_of_lt _ _ t 0 [] htl
  rw [hprof]

theorem cross_calc_a_eq_spec_witness :
    cross_calc_a [1] [[(2 : ℚ)]] [[(4 : ℚ)]] = specCoefA [1] [[(2 : ℚ)]] [[(4 : ℚ)]] :=
  cross_calc_a_eq_spec [1] [[(2 : ℚ)]] [[(4 : ℚ)]] (by decide)

/-- The pooling loop shared by `CrossReg.cross_fit_px` and
`GReg.G_fit_frames`: iterate over the labels in order, skip labels in
`bad_rois` (`continue`), and concatenate the per-label data pairs into
the pooled x/y arrays. -/
def poolDeltas (labels bad_rois : List ℕ) (f : ℕ → List ℚ × List ℚ) : List ℚ × List ℚ :=
  match labels with
  | [] => ([], [])
  | l :: ls =>
    let rest := poolDeltas ls bad_rois f
    if l ∈ bad_rois then rest else ((f l).1 ++ rest.1, (f l).2 ++ rest.2)

theorem poolDeltas_filter (labels bad_rois : List ℕ) (f : ℕ → List ℚ × List ℚ) :
    poolDeltas labels bad_rois f =
      poolDeltas (labels.filter (fun l => decide (l ∉ bad_rois))) [] f := by
  induction labels with
  | nil => rfl
  | cons l ls ih =>
    by_cases h : l ∈ bad_rois
    · rw [show (l :: ls).filter (fun l => decide (l ∉ bad_rois)) =
          ls.filter (fun l => decide (l ∉ bad_rois)) by simp [List.filter_cons, h]]
      simp only [poolDeltas, if_pos h]
      exact ih
    · rw [show (l :: ls).filter (fun l => decide (l ∉ bad_rois)) =
          l :: ls.filter (fun l => decide (l ∉ bad_rois)) by simp [List.filter_cons, h]]
      simp only [poolDeltas, if_neg h, if_neg (List.not_mem_nil l), ih]

/-- One label's contribution in `GReg.G_fit_frames`:
`DD_delta = np.mean(DD_img_post, where=label_mask) − np.mean(DD_img, where=label_mask)`
and
`Fc_delta = np.mean(Fc_pre, where=label_mask) − np.mean(Fc_post, where=label_mask)`,
each per frame. -/
def regionDelta (DD_img DD_img_post Fc_pre_img Fc_post_img : Stack) (label_mask : MaskF) :
    List ℚ × List ℚ :=
  (List.zipWith (fun post pre => post - pre)
    (DD_img_post.map (fun fr => npMeanWhere label_mask fr))
    (DD_img.map (fun fr => npMeanWhere label_mask fr)),
   List.zipWith (fun pre post => pre - post)
    (Fc_pre_img.map (fun fr => npMeanWhere label_mask fr))
    (Fc_post_img.map (fun fr => npMeanWhere label_mask fr)))

/-- `GReg.G_fit_frames(bad_rois)`: pool the per-region per-frame deltas
over labels `1..np.max(label)` excluding `bad_rois`, then
`stats.linregress(DD_delta_arr, Fc_delta_arr)` — returned here as the
(slope, intercept) pair of the ordinary least-squares fit. -/
def G_fit_frames_calc (DD_img DD_img_post Fc_pre_img Fc_post_img : Stack)
    (label : LabelMap) (bad_rois : List ℕ) : ℚ × ℚ :=
  let data := poolDeltas (List.range' 1 (labelMax label)) bad_rois
    (fun label_num => regionDelta DD_img DD_img_post Fc_pre_img Fc_post_img
      (labelMask label label_num))
  (linregressSlope data.1 data.2, linregressIntercept data.1 data.2)

/-- C3: the global G fit pools the per-region per-frame deltas
(DD: post−pre, Fc: pre−post) over exactly the labels not flagged in
`bad_rois`, and fits ordinary least squares of ΔFc on ΔDD; flagging a
region as bad yields the identical pooled data — and hence the
identical slope and intercept — as physically removing that region
from the label list. -/
theorem G_fit_frames_bad_roi (DD_img DD_img_post Fc_pre_img Fc_post_img : Stack)
    (label : LabelMap) (beta : ℕ)
    (hK : ∃ l ∈ List.range' 1 (labelMax label), l ≠ beta) :
    poolDeltas (List.range' 1 (labelMax label)) [beta]
      (fun label_num => regionDelta DD_img DD_img_post Fc_pre_img Fc_post_img
        (labelMask label label_num)) =
    poolDeltas ((List.range' 1 (labelMax label)).filter (fun l => decide (l ≠ beta))) []
      (fun label_num => regionDelta DD_img DD_img_post Fc_pre_img Fc_post_img
        (labelMask label label_num)) ∧
    G_fit_frames_calc DD_img DD_img_post Fc_pre_img Fc_post_img label [beta] =
      (linregressSlope
        (poolDeltas ((List.range' 1 (labelMax label)).filter (fun l => decide (l ≠ beta))) []
          (fun label_num => regionDelta DD_img DD_img_post Fc_pre_img Fc_post_img
            (labelMask label label_num))).1
        (poolDeltas ((List.range' 1 (labelMax label)).filter (fun l => decide (l ≠ beta))) []
          (fun label_num => regionDelta DD_img DD_img_post Fc_pre_img Fc_post_img
            (labelMask label label_num))).2,
       linregressIntercept
        (poolDeltas ((List.range' 1 (labelMax label)).filter (fun l => decide (l ≠ beta))) []
          (fun label_num => regionDelta DD_img DD_img_post Fc_pre_img Fc_post_img
            (labelMask label label_num))).1
        (poolDeltas ((List.range' 1 (labelMax label)).filter (fun l => decide (l ≠ beta))) []
          (fun label_num => regionDelta DD_img DD_img_post Fc_pre_img Fc_post_img
            (labelMask label label_num))).2) := by
  have hfilter : (List.range' 1 (labelMax label)).filter
      (fun l => decide (l ∉ ([beta] : List ℕ))) =
      (List.range' 1 (labelMax label)).filter (fun l => decide (l ≠ beta)) := by
    apply List.filter_congr
    intro l _
    simp
  have hpool := poolDeltas_filter (List.range' 1 (labelMax label)) [beta]
    (fun label_num => regionDelta DD_img DD_img_post Fc_pre_img Fc_post_img
      (labelMask label label_num))
  rw [hfilter] at hpool
  refine ⟨hpool, ?_⟩
  simp only [G_fit_frames_calc]
  rw [hpool]

theorem G_fit_frames_bad_roi_witness :
    poolDeltas (List.range' 1 (labelMax [1, 2])) [2]
      (fun label_num => regionDelta [[(1 : ℚ), 2]] [[(5 : ℚ), 10]] [[(9 : ℚ), 12]]
        [[(3 : ℚ), 4]] (labelMask [1, 2] label_num)) =
    poolDeltas ((List.range' 1 (labelMax [1, 2])).filter (fun l => decide (l ≠ 2))) []
      (fun label_num => regionDelta [[(1 : ℚ), 2]] [[(5 : ℚ), 10]] [[(9 : ℚ), 12]]
        [[(3 : ℚ), 4]] (labelMask [1, 2] label_num)) ∧
    G_fit_frames_calc [[(1 : ℚ), 2]] [[(5 : ℚ), 10]] [[(9 : ℚ), 12]] [[(3 : ℚ), 4]] [1, 2] [2] =
      (linregressSlope
        (poolDeltas ((List.range' 1 (labelMax [1, 2])).filter (fun l => decide (l ≠ 2))) []
          (fun label_num => regionDelta [[(1 : ℚ), 2]] [[(5 : ℚ), 10]] [[(9 : ℚ), 12]]
            [[(3 : ℚ), 4]] (labelMask [1, 2] label_num))).1
        (poolDeltas ((List.range' 1 (labelMax [1, 2])).filter (fun l => decide (l ≠ 2))) []
          (fun label_num => regionDelta [[(1 : ℚ), 2]] [[(5 : ℚ), 10]] [[(9 : ℚ), 12]]
            [[(3 : ℚ), 4]] (labelMask [1, 2] label_num))).2,
       linregressIntercept
        (poolDeltas ((List.range' 1 (labelMax [1, 2])).filter (fun l => decide (l ≠ 2))) []
          (fun label_num => regionDelta [[(1 : ℚ), 2]] [[(5 : ℚ), 10]] [[(9 : ℚ), 12]]
            [[(3 : ℚ), 4]] (labelMask [1, 2] label_num))).1
        (poolDeltas ((List.range' 1 (labelMax [1, 2])).filter (fun l => decide (l ≠ 2))) []
          (fun label_num => regionDelta [[(1 : ℚ), 2]] [[(5 : ℚ), 10]] [[(9 : ℚ), 12]]
            [[(3 : ℚ), 4]] (labelMask [1, 2] label_num))).2) :=
  G_fit_frames_bad_roi [[(1 : ℚ), 2]] [[(5 : ℚ), 10]] [[(9 : ℚ), 12]] [[(3 : ℚ), 4]]
    [1, 2] 2 (by decide)

/-- The channel dispatch at the top of `CrossReg.cross_fit_px`:
select the (pure, cross) frame pair from the mode and the
registration's `img_type`, or raise
`ValueError('Inconsidtent image type and coeficient!')` on any other
combination.  (`AD_frame` is accepted but never selected — the source
dispatch never reads `self.AD_img`.) -/
def cross_fit_px_channels (mode img_type : String)
    (DD_frame DA_frame AD_frame AA_frame : Frame) : Except String (Frame × Frame) :=
  if mode = "a" ∧ img_type = "A" then Except.ok (AA_frame, DA_frame)
  else if mode = "b" ∧ img_type = "A" then Except.ok (AA_frame, DD_frame)
  else if mode = "c" ∧ img_type = "D" then Except.ok (DD_frame, AA_frame)
  else if mode = "d" ∧ img_type = "D" then Except.ok (DD_frame, DA_frame)
  else Except.error "Inconsidtent image type and coeficient!"

/-- `ma.masked_where(cond, frame).compressed()`: `masked_where` masks
the entries where `cond` holds, and `compressed()` returns the
unmasked entries — i.e. the pixel values at which `cond` is False. -/
def masked_where_compressed (cond : MaskF) (frame : Frame) : List ℚ :=
  (cond.zip frame).filterMap (fun p => if p.1 then none else some p.2)

/-- The `all_zeros` filter of `cross_fit_px` (and the `delta_zeros`
filter of `G_fit_px`): drop every position at which either list's
entry is ≤ 0, keeping the two lists aligned. -/
def filter_pos_pairs (xs ys : List ℚ) : List ℚ × List ℚ :=
  let pairs := (xs.zip ys).filter (fun p => decide (0 < p.1) && decide (0 < p.2))
  (pairs.map (fun p => p.1), pairs.map (fun p => p.2))

/-- The pixel-pooling loop of `CrossReg.cross_fit_px`: for each label
`1..np.max(label)`, `pure_i`/`cross_i` are the compressed masked
arrays (`ma.masked_where(label_mask, frame).compressed()` — note the
condition is the label mask itself, not its negation), filtered by
`all_zeros`, skipped for labels in `bad_rois`, and concatenated. -/
def cross_fit_px_data (label : LabelMap) (pure_frame cross_frame : Frame)
    (bad_rois : List ℕ) : List ℚ × List ℚ :=
  poolDeltas (List.range' 1 (labelMax label)) bad_rois
    (fun label_num =>
      filter_pos_pairs (masked_where_compressed (labelMask label label_num) pure_frame)
        (masked_where_compressed (labelMask label label_num) cross_frame))

/-- `CrossReg.cross_fit_px(frame_num, mode, bad_rois)` on one frame's
channel data: dispatch the channels (raising on a mode/type mismatch),
pool the pixel pairs, and fit `stats.linregress` — returned as the
(slope, intercept) pair. -/
def cross_fit_px (mode img_type : String) (label : LabelMap)
    (DD_frame DA_frame AD_frame AA_frame : Frame) (bad_rois : List ℕ) :
    Except String (ℚ × ℚ) :=
  match cross_fit_px_channels mode img_type DD_frame DA_frame AD_frame AA_frame with
  | Except.error e => Except.error e
  | Except.ok (pure_frame, cross_frame) =>
    let data := cross_fit_px_data label pure_frame cross_frame bad_rois
    Except.ok (linregressSlope data.1 data.2, linregressIntercept data.1 data.2)

/-- C6: whenever the requested coefficient mode does not match the
registration's declared type (mode `a`/`b` need type `A`, mode `c`/`d`
need type `D`), `cross_fit_px` fails with the source's `ValueError`
message and produces no coefficient estimate. -/
theorem cross_fit_px_mode_mismatch (mode img_type : String) (label : LabelMap)
    (DD_frame DA_frame AD_frame AA_frame : Frame) (bad_rois : List ℕ)
    (h : ¬((mode = "a" ∧ img_type = "A") ∨ (mode = "b" ∧ img_type = "A") ∨
      (mode = "c" ∧ img_type = "D") ∨ (mode = "d" ∧ img_type = "D"))) :
    cross_fit_px mode img_type label DD_frame DA_frame AD_frame AA_frame bad_rois =
      Except.error "Inconsidtent image type and coeficient!" := by
  simp only [not_or] at h
  obtain ⟨h1, h2, h3, h4⟩ := h
  simp only [cross_fit_px, cross_fit_px_channels, if_neg h1, if_neg h2, if_neg h3, if_neg h4]

theorem cross_fit_px_mode_mismatch_witness :
    cross_fit_px "a" "D" [1] [(1 : ℚ)] [(2 : ℚ)] [(3 : ℚ)] [(4 : ℚ)] [] =
      Except.error "Inconsidtent image type and coeficient!" :=
  cross_fit_px_mode_mismatch "a" "D" [1] [(1 : ℚ)] [(2 : ℚ)] [(3 : ℚ)] [(4 : ℚ)] []
    (by decide)

/-- C8 (counterexample to the spec): the mode-`b` dispatch on an
acceptor-type registration pairs the pure channel AA with the DD
channel, not with the AD channel that defines `b = mean(AD/AA)`;
at channels DD=[1], DA=[2], AD=[3], AA=[4] the selected cross channel
is [1] (DD), which differs from AD=[3]. -/
theorem cross_fit_px_mode_b_uses_DD :
    cross_fit_px_channels "b" "A" [(1 : ℚ)] [(2 : ℚ)] [(3 : ℚ)] [(4 : ℚ)] =
      Except.ok ([(4 : ℚ)], [(1 : ℚ)]) ∧ ([(1 : ℚ)] : Frame) ≠ [(3 : ℚ)] := by
  constructor
  · rfl
  · intro hcon
    have : (1 : ℚ) = 3 := List.head_eq_of_cons_eq hcon
    norm_num at this

/-- C7 (counterexample to the spec): with label map `[1, 0]` (pixel 0
inside region 1, pixel 1 background), pure frame `[5, 7]` and cross
frame `[6, 8]`, the pooled fit data of `cross_fit_px` is the
background pixel `([7], [8])` — the region pixel `([5], [6])` is
excluded and the out-of-region pixel included, because
`ma.masked_where(label_mask, ...).compressed()` keeps the pixels
where the label mask is False. -/
theorem cross_fit_px_pools_outside_pixels :
    cross_fit_px_data [1, 0] [(5 : ℚ), 7] [(6 : ℚ), 8] [] = ([(7 : ℚ)], [(8 : ℚ)]) ∧
    (([(7 : ℚ)], [(8 : ℚ)]) : List ℚ × List ℚ) ≠ ([(5 : ℚ)], [(6 : ℚ)]) := by
  constructor
  · rfl
  · intro hcon
    have h1 : ([(7 : ℚ)] : List ℚ) = [(5 : ℚ)] := congrArg Prod.fst hcon
    have : (7 : ℚ) = 5 := List.head_eq_of_cons_eq h1
    norm_num at this

/-- The label loop of `GReg.G_fit_px`, embedded faithfully to the
source: the accumulators `DD_delta_frame_arr`/`Fc_delta_frame_arr` are
initialised empty and never reassigned, and each non-bad iteration
executes `DD_delta_arr = np.concatenate((DD_delta_frame_arr, DD_delta))`
— i.e. rebinds the fit arrays to (empty ++ current label's data).
After the loop the fit arrays therefore hold exactly the last non-bad
label's data; if no non-bad label exists they are unbound (a Python
`NameError`), modelled as `none`. -/
def G_fit_px_loop (labels bad_rois : List ℕ) (f : ℕ → List ℚ × List ℚ) :
    Option (List ℚ × List ℚ) :=
  match labels with
  | [] => none
  | l :: ls =>
    match G_fit_px_loop ls bad_rois f with
    | some r => some r
    | none => if l ∈ bad_rois then none else some (f l)

/-- `GReg.G_fit_px(frame_num, bad_rois)` on one frame's data: per-pixel
deltas `DD_post − min(DD_pre, DD_post)` and `Fc_pre − min(Fc_post, Fc_pre)`,
compressed per label with `ma.masked_where(label_mask, ...)`, filtered
by `delta_zeros`, and run through the (buggy) accumulation loop; the
result is the data pair that reaches `stats.linregress`. -/
def G_fit_px_data (label : LabelMap)
    (DD_pre_frame DD_post_frame Fc_pre_frame Fc_post_frame : Frame)
    (bad_rois : List ℕ) : Option (List ℚ × List ℚ) :=
  let DD_delta_frame := List.zipWith (fun post pre => post - min pre post)
    DD_post_frame DD_pre_frame
  let Fc_delta_frame := List.zipWith (fun pre post => pre - min post pre)
    Fc_pre_frame Fc_post_frame
  G_fit_px_loop (List.range' 1 (labelMax label)) bad_rois
    (fun label_num =>
      filter_pos_pairs (masked_where_compressed (labelMask label label_num) DD_delta_frame)
        (masked_where_compressed (labelMask label label_num) Fc_delta_frame))

/-- C9 (counterexample to the spec): with two non-bad regions
(label map `[1, 2]`, per-pixel deltas ΔDD = `[4, 8]`,
ΔFc = `[6, 8]`), the data reaching the pixel-wise G fit is
`([4], [6])` — a single region's complement pixels — and not the union
`([4, 8], [6, 8])` of the in-region pixels of both regions: the loop
rebinds the fit arrays from the never-updated empty accumulator on
every iteration, so only the last non-bad region survives, and the
mask inversion selects the out-of-region pixels. -/
theorem G_fit_px_uses_only_last_region :
    G_fit_px_data [1, 2] [(1 : ℚ), 2] [(5 : ℚ), 10] [(9 : ℚ), 12] [(3 : ℚ), 4] [] =
      some ([(4 : ℚ)], [(6 : ℚ)]) ∧
    some (([(4 : ℚ)], [(6 : ℚ)]) : List ℚ × List ℚ) ≠
      some (([(4 : ℚ), 8], [(6 : ℚ), 8]) : List ℚ × List ℚ) := by
  constructor
  · norm_num [G_fit_px_data, G_fit_px_loop, labelMax, labelMask, masked_where_compressed,
      filter_pos_pairs, List.range']
    decide
  · intro hcon
    have h1 : (([(4 : ℚ)], [(6 : ℚ)]) : List ℚ × List ℚ) = ([(4 : ℚ), 8], [(6 : ℚ), 8]) :=
      Option.some_injective _ hcon
    have h2 : ([(4 : ℚ)] : List ℚ) = [(4 : ℚ), 8] := congrArg Prod.fst h1
    have h3 : ([] : List ℚ) = [(8 : ℚ)] := List.tail_eq_of_cons_eq h2
    exact List.cons_ne_nil _ _ h3.symm

/-- Python keyword-argument binding of a call `f(**kwargs)` against the
parameter list of `f` (no positional arguments, no defaults — the
situation of the `CrossRegSet`/`GRegSet` constructor calls): a
`TypeError` is raised when a keyword does not name a parameter or a
parameter receives no value. -/
def pyCallKwargs (params kwargs : List String) : Except String Unit :=
  if (kwargs.all (fun k => params.contains k)) && (params.all (fun p => kwargs.contains p))
  then Except.ok () else Except.error "TypeError"

/-- Parameters of `CrossReg.__init__` (after `self`). -/
def CrossReg_init_params : List String := ["img", "img_name", "exp_list", "img_type"]

/-- Keywords used by `CrossRegSet.__init__` when constructing each
`CrossReg`. -/
def CrossRegSet_call_kwargs : List String :=
  ["data_path", "data_name", "exp_list", "data_type", "trim_frame"]

/-- Parameters of `GReg.__init__` (after `self`). -/
def GReg_init_params : List String := ["img_name", "pre_img", "post_img", "coef_list"]

/-- Keywords used by `GRegSet.__init__` when constructing each `GReg`
(ignoring any extra `**kwargs`, which could only add further unexpected
keywords). -/
def GRegSet_call_kwargs : List String :=
  ["img_name", "raw_path", "bleach_path", "bleach_frame", "bleach_exp", "A_exp", "D_exp"]

/-- The construction loop of `CrossRegSet.__init__`/`GRegSet.__init__`
over the registration names of one dictionary: each iteration performs
the keyword-argument call; the first raised error aborts the loop. -/
def constructAll (reg_names : List String) (params kwargs : List String) :
    Except String Unit :=
  match reg_names with
  | [] => Except.ok ()
  | _ :: rest =>
    match pyCallKwargs params kwargs with
    | Except.error e => Except.error e
    | Except.ok _ => constructAll rest params kwargs

/-- `CrossRegSet.__init__(data_path, donor_reg_dict, acceptor_reg_dict)`:
construct a `CrossReg` for every donor registration, then for every
acceptor registration, with the keyword set of the source call site. -/
def CrossRegSet_init (donor_reg_names acceptor_reg_names : List String) :
    Except String Unit :=
  match constructAll donor_reg_names CrossReg_init_params CrossRegSet_call_kwargs with
  | Except.error e => Except.error e
  | Except.ok _ => constructAll acceptor_reg_names CrossReg_init_params CrossRegSet_call_kwargs

/-- `GRegSet.__init__(data_path, tandem_reg_dict)`: construct a `GReg`
for every tandem registration with the keyword set of the source call
site. -/
def GRegSet_init (tandem_reg_names : List String) : Except String Unit :=
  constructAll tandem_reg_names GReg_init_params GRegSet_call_kwargs

/-- C10: constructing a `CrossRegSet` from any non-empty donor or
acceptor registration dictionary raises a `TypeError` (the call passes
keywords `data_path`, `data_name`, `data_type`, `trim_frame` that
`CrossReg.__init__(img, img_name, exp_list, img_type)` does not
accept), and likewise constructing a `GRegSet` from any non-empty
tandem registration dictionary raises a `TypeError` (`raw_path`,
`bleach_path`, `bleach_frame`, `bleach_exp`, `A_exp`, `D_exp` are not
parameters of `GReg.__init__(img_name, pre_img, post_img, coef_list)`). -/
theorem regset_constructors_type_error (donor_reg_names acceptor_reg_names
    tandem_reg_names : List String) :
    (donor_reg_names ≠ [] ∨ acceptor_reg_names ≠ [] →
      CrossRegSet_init donor_reg_names acceptor_reg_names = Except.error "TypeError") ∧
    (tandem_reg_names ≠ [] →
      GRegSet_init tandem_reg_names = Except.error "TypeError") := by
  have hcross : pyCallKwargs CrossReg_init_params CrossRegSet_call_kwargs =
      Except.error "TypeError" := by rfl
  have hg : pyCallKwargs GReg_init_params GRegSet_call_kwargs =
      Except.error "TypeError" := by rfl
  constructor
  · intro h
    rcases h with h | h
    · obtain ⟨n, rest, rfl⟩ := List.exists_cons_of_ne_nil h
      simp only [CrossRegSet_init, constructAll, hcross]
    · cases donor_reg_names with
      | nil =>
        obtain ⟨n, rest, rfl⟩ := List.exists_cons_of_ne_nil h
        simp only [CrossRegSet_init, constructAll, hcross]
      | cons n rest =>
        simp only [CrossRegSet_init, constructAll, hcross]
  · intro h
    obtain ⟨n, rest, rfl⟩ := List.exists_cons_of_ne_nil h
    simp only [GRegSet_init, constructAll, hg]

theorem regset_constructors_type_error_witness :
    CrossRegSet_init ["calib_reg_1"] [] = Except.error "TypeError" ∧
    GRegSet_init ["tandem_reg_1"] = Except.error "TypeError" :=
  ⟨(regset_constructors_type_error ["calib_reg_1"] [] ["tandem_reg_1"]).1
      (Or.inl (by decide)),
   (regset_constructors_type_error ["calib_reg_1"] [] ["tandem_reg_1"]).2 (by decide)⟩

end CoefCalc
